import Mathlib

/-!
Shallow embedding of the Katletos/saimod simulation core.

Sources embedded:
  src/src/simulation.rs  (the Simulation state machine: with_config, run,
                          reset_metrics, process_tick, generate_new_events, result_of)
  src/src/main.rs        (the moving-window band formula of task_3_3)

Modelling conventions:
  - Rust u32 / usize counters become Nat; u32 subtraction (always guarded in
    the source) becomes truncated Nat subtraction.
  - f32 metric sums become exact rationals; the only place where f32 special
    values matter to a claim is the unguarded division in result_of, modelled
    by the F32 type below which carries NaN and the infinities.
  - The thread-local random generator becomes an explicit oracle: an infinite
    stream of naturals with a read position. gen_range lo hi maps the drawn
    natural into the half-open interval lo..hi exactly as the source range is
    half-open; gen_bool p is deterministically true for p >= 1 and false for
    p <= 0 (rand's Bernoulli special cases) and otherwise consumes one draw,
    either outcome being realisable by a suitable oracle.
  - The panic of the assert on simulation.rs line 164 is modelled by Option:
    a none result of processEvent / process_tick / run is the aborted run.
-/

/-- Oracle model of the thread-local random generator: an infinite stream of
naturals together with the position of the next unread draw. -/
structure Rng where
  stream : Nat → Nat
  pos : Nat

/-- Reading one draw from the oracle. -/
def Rng.next (r : Rng) : Nat × Rng :=
  (r.stream r.pos, { r with pos := r.pos + 1 })

/-- Model of thread_rng().gen_range(lo..hi): one draw, mapped into the
half-open interval lo..hi (Rust Range is half-open). -/
def gen_range (lo hi : Nat) (r : Rng) : Nat × Rng :=
  let p := r.next
  (lo + p.1 % (hi - lo), p.2)

/-- Model of thread_rng().gen_bool(p): always true for p >= 1 and always
false for p <= 0, exactly as rand's Bernoulli distribution; otherwise the
outcome is taken from the oracle draw. -/
def gen_bool (p : ℚ) (r : Rng) : Bool × Rng :=
  let q := r.next
  if 1 ≤ p then (true, q.2)
  else if p ≤ 0 then (false, q.2)
  else (q.1 % 2 == 0, q.2)

/-- The Event enum of the source (crate::Event, re-exported in main.rs from
the event module); variants and payloads as matched in Simulation::process_tick. -/
inductive Event where
  | Enter (arrival_time : Nat)
  | WaitingForWorker (start_time leave_time : Nat) (is_first_time : Bool)
  | WorkerWalkingDance (free_worker_time : Nat)
  | WaitingForFood (finish_food_time : Nat)
  | ConsumeFood (end_consume_time : Nat)
deriving DecidableEq

/-- SimulationConfig as consumed by simulation.rs: tick horizon, resource
counts, arrival probability, the three duration ranges (half-open, stored as
pairs of endpoints) and the log-enable flag. -/
structure SimulationConfig where
  max_time : Nat
  tables : Nat
  workers : Nat
  client_ratio : ℚ
  production_time : Nat × Nat
  dancing_time : Nat × Nat
  consumption_time : Nat × Nat
  use_logs : Bool
deriving DecidableEq

/-- The f32 values observable from result_of: NaN, the two infinities, or a
finite value (finite arithmetic taken exact). -/
inductive F32 where
  | nan
  | inf
  | ninf
  | val (q : ℚ)
deriving DecidableEq

/-- IEEE semantics of the f32 division sum / (count as f32) performed in
result_of: division by a zero count yields NaN when the sum is zero and a
signed infinity otherwise; no guard and no substitute value. -/
def f32div (sum : ℚ) (count : Nat) : F32 :=
  if count = 0 then
    if sum = 0 then F32.nan else if 0 < sum then F32.inf else F32.ninf
  else F32.val (sum / count)

/-- The Simulation struct of simulation.rs, field for field.  The five
metric accumulators are (sum, count) pairs; the five _pre fields are set to
zero at construction and reset and never otherwise used, as in the source. -/
structure Simulation where
  t_max_time : Nat
  available_tables : Nat
  available_workers : Nat
  events : List Event
  average_worker_waiting_time : ℚ × Nat
  average_order_time : ℚ × Nat
  average_consumption_time : ℚ × Nat
  average_busy_tables : ℚ × Nat
  average_free_workers : ℚ × Nat
  average_worker_waiting_time_pre : ℚ
  average_order_time_pre : ℚ
  average_consumption_time_pre : ℚ
  average_busy_tables_pre : ℚ
  average_free_workers_pre : ℚ
  not_dispatched_clients : Nat
  dispatched_clients_count : Nat
  immediately_left_clients_count : Nat
  config : SimulationConfig
  world_time : Option Nat
deriving DecidableEq

/-- Simulation::with_config (simulation.rs lines 38-64). -/
def Simulation.with_config (config : SimulationConfig) : Simulation where
  t_max_time := config.max_time
  available_tables := config.tables
  available_workers := config.workers
  events := []
  average_worker_waiting_time := (0, 0)
  average_order_time := (0, 0)
  average_consumption_time := (0, 0)
  average_busy_tables := (0, 0)
  average_free_workers := (0, 0)
  average_worker_waiting_time_pre := 0
  average_order_time_pre := 0
  average_consumption_time_pre := 0
  average_busy_tables_pre := 0
  average_free_workers_pre := 0
  not_dispatched_clients := 0
  dispatched_clients_count := 0
  immediately_left_clients_count := 0
  config := config
  world_time := none

/-- Simulation::reset_metrics (simulation.rs lines 88-104): zero every
accumulator, every _pre field and every client counter; touch nothing else. -/
def Simulation.reset_metrics (sim : Simulation) : Simulation :=
  { sim with
    average_worker_waiting_time := (0, 0)
    average_order_time := (0, 0)
    average_consumption_time := (0, 0)
    average_busy_tables := (0, 0)
    average_free_workers := (0, 0)
    average_worker_waiting_time_pre := 0
    average_order_time_pre := 0
    average_consumption_time_pre := 0
    average_busy_tables_pre := 0
    average_free_workers_pre := 0
    not_dispatched_clients := 0
    dispatched_clients_count := 0
    immediately_left_clients_count := 0 }

/-- The Results record as constructed by result_of (simulation.rs lines
245-267); the struct itself lives in the results module absent from src, so
the field list is taken from that constructor.  Averaged fields are f32
divisions and may be NaN; the three counters are exact casts. -/
structure Results where
  average_consumption_time : F32
  average_worker_waiting_time : F32
  average_order_time : F32
  average_busy_tables : F32
  average_free_workers : F32
  dispatched_clients : ℚ
  not_dispatched_clients : ℚ
  immediately_left_clients_count : ℚ
deriving DecidableEq

/-- result_of (simulation.rs lines 245-267): derive each average by dividing
its accumulator sum by its observation count, with no guard on a zero count. -/
def result_of (sim : Simulation) : Results where
  average_consumption_time :=
    f32div sim.average_consumption_time.1 sim.average_consumption_time.2
  average_worker_waiting_time :=
    f32div sim.average_worker_waiting_time.1 sim.average_worker_waiting_time.2
  average_order_time := f32div sim.average_order_time.1 sim.average_order_time.2
  average_busy_tables := f32div sim.average_busy_tables.1 sim.average_busy_tables.2
  average_free_workers := f32div sim.average_free_workers.1 sim.average_free_workers.2
  dispatched_clients := (sim.dispatched_clients_count : ℚ)
  not_dispatched_clients := (sim.not_dispatched_clients : ℚ)
  immediately_left_clients_count := (sim.immediately_left_clients_count : ℚ)

/-- Modelled from the spec: the Log type lives in the history module absent
from src.  Per the spec it is an ordered sequence of (tick_offset, Results)
snapshots, one per simulated tick, built by Log::empty and Log::append. -/
abbrev Log := List (Nat × Results)

/-- Modelled from the spec: Log::empty, the empty time series. -/
def Log.empty : Log := []

/-- Modelled from the spec: Log::append pushes one (tick_offset, snapshot)
entry at the end of the series. -/
def Log.appendEntry (l : Log) (t : Nat) (r : Results) : Log := l ++ [(t, r)]

/-- A pending insertion into the fresh queue built during process_tick:
either new_events.push_front or new_events.push_back of one event.  Each
match arm of the source performs at most one such push. -/
inductive Push where
  | pushFront (e : Event)
  | pushBack (e : Event)
deriving DecidableEq

/-- Applying a pending insertion to the fresh queue (front of the VecDeque
is the head of the list). -/
def applyPush : Option Push → List Event → List Event
  | none, acc => acc
  | some (Push.pushFront e), acc => e :: acc
  | some (Push.pushBack e), acc => acc ++ [e]

/-- One iteration of the while-let loop body of Simulation::process_tick
(simulation.rs lines 109-219): the match on the popped event.  The metric
and resource fields are mutated exactly as in the source; instead of pushing
directly into new_events, the produced push (if any) is returned to be
applied by processEvents.  A none result models the panic of the assert on
line 164 (available_workers must not exceed config.workers after a worker
is freed); the source checks it right after the increment, before drawing
the production time. -/
def processEvent (time : Nat) (sim : Simulation) (e : Event) (rng : Rng) :
    Option (Simulation × Option Push × Rng) :=
  match e with
  | Event.Enter _arrival_time =>
    if 0 < sim.available_tables then
      let sim1 := { sim with available_tables := sim.available_tables - 1 }
      let d := gen_range 5 10 rng
      let leave_time := d.1 + time
      some (sim1, some (Push.pushBack (Event.WaitingForWorker time leave_time true)), d.2)
    else
      some ({ sim with
        immediately_left_clients_count := sim.immediately_left_clients_count + 1 },
        none, rng)
  | Event.WaitingForWorker start_time leave_time is_first_time =>
    if leave_time ≤ time then
      let sim1 := { sim with
        available_tables := sim.available_tables + 1
        average_worker_waiting_time :=
          (sim.average_worker_waiting_time.1 + ((leave_time - start_time : Nat) : ℚ),
            sim.average_worker_waiting_time.2 + 1) }
      let sim2 :=
        if is_first_time then
          { sim1 with not_dispatched_clients := sim1.not_dispatched_clients + 1 }
        else sim1
      some (sim2, none, rng)
    else if 0 < sim.available_workers then
      let sim1 := { sim with available_workers := sim.available_workers - 1 }
      let d := gen_range sim.config.dancing_time.1 sim.config.dancing_time.2 rng
      let free_worker_time := d.1 + time
      let sim2 := { sim1 with
        average_worker_waiting_time :=
          (sim1.average_worker_waiting_time.1 + ((time - start_time : Nat) : ℚ),
            sim1.average_worker_waiting_time.2 + 1) }
      some (sim2, some (Push.pushBack (Event.WorkerWalkingDance free_worker_time)), d.2)
    else
      some (sim,
        some (Push.pushBack (Event.WaitingForWorker start_time leave_time is_first_time)),
        rng)
  | Event.WorkerWalkingDance free_worker_time =>
    if free_worker_time ≤ time then
      let sim1 := { sim with available_workers := sim.available_workers + 1 }
      if sim1.available_workers ≤ sim1.config.workers then
        let d := gen_range sim.config.production_time.1 sim.config.production_time.2 rng
        let producing_time := d.1
        let sim2 := { sim1 with
          average_order_time :=
            (sim1.average_order_time.1 + (producing_time : ℚ), sim1.average_order_time.2 + 1) }
        let finish_food_time := producing_time + time
        some (sim2, some (Push.pushBack (Event.WaitingForFood finish_food_time)), d.2)
      else
        none
    else
      some (sim, some (Push.pushFront (Event.WorkerWalkingDance free_worker_time)), rng)
  | Event.WaitingForFood finish_food_time =>
    if finish_food_time ≤ time then
      let d := gen_range sim.config.consumption_time.1 sim.config.consumption_time.2 rng
      let consumption_time := d.1
      let sim1 := { sim with
        average_consumption_time :=
          (sim.average_consumption_time.1 + (consumption_time : ℚ),
            sim.average_consumption_time.2 + 1) }
      let end_consume_time := consumption_time + time
      some (sim1, some (Push.pushBack (Event.ConsumeFood end_consume_time)), d.2)
    else
      some (sim, some (Push.pushFront (Event.WaitingForFood finish_food_time)), rng)
  | Event.ConsumeFood end_consume_time =>
    if end_consume_time ≤ time then
      let b := gen_bool (1 / 5 : ℚ) rng
      if b.1 then
        let d := gen_range 1 3 b.2
        let leave_time := d.1 + time
        some (sim, some (Push.pushBack (Event.WaitingForWorker time leave_time false)), d.2)
      else
        some ({ sim with
          dispatched_clients_count := sim.dispatched_clients_count + 1
          available_tables := sim.available_tables + 1 }, none, b.2)
    else
      some (sim, some (Push.pushBack (Event.ConsumeFood end_consume_time)), rng)

/-- The while-let drain loop of Simulation::process_tick: evs is what
remains of the old queue, acc is new_events.  Draining stops at the first
panicking event. -/
def processEvents (time : Nat) (sim : Simulation) (evs : List Event)
    (acc : List Event) (rng : Rng) : Option (Simulation × List Event × Rng) :=
  match evs with
  | [] => some (sim, acc, rng)
  | e :: rest =>
    match processEvent time sim e rng with
    | none => none
    | some (sim1, push, rng1) => processEvents time sim1 rest (applyPush push acc) rng1

/-- Simulation::process_tick (simulation.rs lines 106-231): drain the queue
into a fresh one, then sample busy tables and free workers once, then
install the fresh queue. -/
def process_tick (sim : Simulation) (time : Nat) (rng : Rng) :
    Option (Simulation × Rng) :=
  match processEvents time sim sim.events [] rng with
  | none => none
  | some (sim1, new_events, rng1) =>
    let busy_tables := sim1.config.tables - sim1.available_tables
    some ({ sim1 with
      average_busy_tables :=
        (sim1.average_busy_tables.1 + (busy_tables : ℚ), sim1.average_busy_tables.2 + 1)
      average_free_workers :=
        (sim1.average_free_workers.1 + (sim1.available_workers : ℚ),
          sim1.average_free_workers.2 + 1)
      events := new_events }, rng1)

/-- Simulation::generate_new_events (simulation.rs lines 237-242): with
probability client_ratio push one Enter event at the back of the queue. -/
def generate_new_events (sim : Simulation) (tick : Nat) (rng : Rng) :
    Simulation × Rng :=
  let b := gen_bool sim.config.client_ratio rng
  if b.1 then ({ sim with events := sim.events ++ [Event.Enter tick] }, b.2)
  else (sim, b.2)

/-- The tick loop of Simulation::run: n remaining ticks, current tick
counter, the start time of this call (for log offsets), the log being
accumulated.  Appends one snapshot per tick when logging is enabled, as the
loop body does via partial_result, which is result_of on the current state. -/
def runTicks (sim : Simulation) (start_time tick n : Nat) (log : Log)
    (rng : Rng) : Option (Simulation × Log × Rng) :=
  match n with
  | 0 => some (sim, log, rng)
  | Nat.succ m =>
    let g := generate_new_events sim tick rng
    match process_tick g.1 tick g.2 with
    | none => none
    | some (sim2, rng2) =>
      let log1 :=
        if sim2.config.use_logs then Log.appendEntry log (tick - start_time) (result_of sim2)
        else log
      runTicks sim2 start_time (tick + 1) m log1 rng2

/-- Simulation::run (simulation.rs lines 66-86): read the start time from
world_time (0 on the first call), commit the end time, loop over exactly
t_max_time ticks, and return the derived Results together with the Log and
the final state and oracle. -/
def Simulation.run (sim : Simulation) (rng : Rng) :
    Option (Results × Log × Simulation × Rng) :=
  let start_time := sim.world_time.getD 0
  let end_time := start_time + sim.t_max_time
  let sim0 := { sim with world_time := some end_time }
  match runTicks sim0 start_time start_time sim.t_max_time Log.empty rng with
  | none => none
  | some (sim1, log, rng1) => some (result_of sim1, log, sim1, rng1)

/-- The moving-window band value plotted by task_3_3 (main.rs lines 218-273):
the expression (2.0 * stats.std_dev * stats.t_stat) as f32 divided by the
square root of the window length, with the square root of the length passed
in as sqrt_len (exact for perfect-square window lengths) and f32 arithmetic
taken exact. -/
def task33_band (std_dev t_stat sqrt_len : ℚ) : ℚ :=
  2 * std_dev * t_stat / sqrt_len

/-- Recogniser for WorkerWalkingDance events (a worker currently acquired). -/
def isWWD : Event → Bool
  | Event.WorkerWalkingDance _ => true
  | _ => false

/-- Recogniser for the events whose in-flight client holds a table: every
variant of the live chain except a not-yet-seated Enter. -/
def occupiesTable : Event → Bool
  | Event.Enter _ => false
  | _ => true

/-- Number of acquired workers recorded in a queue. -/
def wwdCount (evs : List Event) : Nat := evs.countP isWWD

/-- Number of occupied tables recorded in a queue. -/
def occCount (evs : List Event) : Nat := evs.countP occupiesTable

/-- The events inserted by a pending push, as a list. -/
def pushEvents : Option Push → List Event
  | none => []
  | some (Push.pushFront e) => [e]
  | some (Push.pushBack e) => [e]

/-- The worker bookkeeping invariant: free workers plus workers currently
acquired (one per WorkerWalkingDance event in flight) equals the configured
worker count. -/
def WorkerInv (s : Simulation) : Prop :=
  s.available_workers + wwdCount s.events = s.config.workers

/-- The table bookkeeping invariant: free tables plus tables currently
occupied (one per in-flight WaitingForWorker, WorkerWalkingDance,
WaitingForFood or ConsumeFood event) equals the configured table count. -/
def TableInv (s : Simulation) : Prop :=
  s.available_tables + occCount s.events = s.config.tables

/-- The simulation states reachable by the program: a freshly constructed
simulation, one tick of the run loop (event generation followed by a
successful process_tick), a metrics reset, or the world-clock commit that
run performs before its loop. -/
inductive Reachable : Simulation → Prop where
  | init (cfg : SimulationConfig) : Reachable (Simulation.with_config cfg)
  | tick (s : Simulation) (t : Nat) (rng : Rng) (s2 : Simulation) (rng2 : Rng) :
      Reachable s →
      process_tick (generate_new_events s t rng).1 t (generate_new_events s t rng).2 =
        some (s2, rng2) →
      Reachable s2
  | reset (s : Simulation) : Reachable s → Reachable (Simulation.reset_metrics s)
  | clock (s : Simulation) (t : Nat) : Reachable s →
      Reachable { s with world_time := some t }

/-- An event in the resource-in-progress group (worker dancing or food being
prepared) that is not yet ready at tick t: exactly the events the source
pushes to the front of the fresh queue. -/
def blockedInProgress (t : Nat) : Event → Bool
  | Event.WorkerWalkingDance f => decide (t < f)
  | Event.WaitingForFood f => decide (t < f)
  | _ => false

/-- A small concrete configuration used by the witnesses. -/
def cfg0 : SimulationConfig where
  max_time := 2
  tables := 1
  workers := 1
  client_ratio := 1
  production_time := (1, 2)
  dancing_time := (1, 3)
  consumption_time := (1, 3)
  use_logs := false

/-- A concrete oracle: the all-zero stream. -/
def rng0 : Rng where
  stream := fun _ => 0
  pos := 0

/-- A configuration with no worker, for the still-waiting part of the C5
witness. -/
def c5cfg : SimulationConfig where
  max_time := 1
  tables := 1
  workers := 0
  client_ratio := 1
  production_time := (1, 2)
  dancing_time := (1, 2)
  consumption_time := (1, 2)
  use_logs := false

/-- A concrete tables = 0 configuration for the C6 witness. -/
def c6cfg : SimulationConfig where
  max_time := 2
  tables := 0
  workers := 1
  client_ratio := 1
  production_time := (1, 2)
  dancing_time := (1, 2)
  consumption_time := (1, 2)
  use_logs := false

/-- A tables = 0 configuration with horizon 1 for the C3 material: every
tick deterministically adds one immediately-left client. -/
def c3cfg : SimulationConfig where
  max_time := 1
  tables := 0
  workers := 0
  client_ratio := 1
  production_time := (1, 2)
  dancing_time := (1, 2)
  consumption_time := (1, 2)
  use_logs := false

/-- The outcome of a first run of the c3cfg simulation with the all-zero
oracle (the run succeeds, so the default of getD is never used). -/
def c3out : Results × Log × Simulation × Rng :=
  (Simulation.run (Simulation.with_config c3cfg) rng0).getD
    (result_of (Simulation.with_config c3cfg), Log.empty, Simulation.with_config c3cfg, rng0)

lemma countP_applyPush (p : Event → Bool) (op : Option Push) (acc : List Event) :
    List.countP p (applyPush op acc) =
      List.countP p acc + List.countP p (pushEvents op) := by
  match op with
  | none => simp [applyPush, pushEvents]
  | some (Push.pushFront e) =>
    simp [applyPush, pushEvents, List.countP_cons, Nat.add_comm]
  | some (Push.pushBack e) =>
    simp [applyPush, pushEvents, List.countP_append]

lemma wwdCount_cons (e : Event) (l : List Event) :
    wwdCount (e :: l) = wwdCount [e] + wwdCount l := by
  simp [wwdCount, List.countP_cons, Nat.add_comm]

lemma occCount_cons (e : Event) (l : List Event) :
    occCount (e :: l) = occCount [e] + occCount l := by
  simp [occCount, List.countP_cons, Nat.add_comm]

lemma processEvent_frame (time : Nat) (sim : Simulation) (e : Event) (rng : Rng)
    (sim1 : Simulation) (push : Option Push) (rng1 : Rng)
    (h : processEvent time sim e rng = some (sim1, push, rng1)) :
    sim1.config = sim.config ∧ sim1.t_max_time = sim.t_max_time ∧
      sim1.world_time = sim.world_time ∧ sim1.events = sim.events := by
  cases e <;> simp only [processEvent] at h <;> split_ifs at h <;>
    simp only [Option.some.injEq, Prod.mk.injEq, reduceCtorEq] at h <;>
    obtain ⟨rfl, rfl, rfl⟩ := h <;> simp

lemma processEvent_conserve (time : Nat) (sim : Simulation) (e : Event) (rng : Rng)
    (sim1 : Simulation) (push : Option Push) (rng1 : Rng)
    (h : processEvent time sim e rng = some (sim1, push, rng1)) :
    sim1.available_workers + wwdCount (pushEvents push) =
        sim.available_workers + wwdCount [e] ∧
      sim1.available_tables + occCount (pushEvents push) =
        sim.available_tables + occCount [e] := by
  cases e <;> simp only [processEvent] at h <;> split_ifs at h <;>
    simp only [Option.some.injEq, Prod.mk.injEq, reduceCtorEq] at h <;>
    obtain ⟨rfl, rfl, rfl⟩ := h <;>
    simp_all [wwdCount, occCount, pushEvents, isWWD, occupiesTable] <;> omega

lemma processEvent_ok (time : Nat) (sim : Simulation) (e : Event) (rng : Rng)
    (hW : sim.available_workers + wwdCount [e] ≤ sim.config.workers) :
    (processEvent time sim e rng).isSome = true := by
  cases e <;> simp only [processEvent] <;> split_ifs <;>
    simp_all [wwdCount, isWWD]

lemma processEvents_conserve (time : Nat) :
    ∀ (evs : List Event) (sim : Simulation) (acc : List Event) (rng : Rng),
      sim.available_workers + (wwdCount evs + wwdCount acc) ≤ sim.config.workers →
      ∃ sim1 q rng1,
        processEvents time sim evs acc rng = some (sim1, q, rng1) ∧
        sim1.available_workers + wwdCount q =
          sim.available_workers + (wwdCount evs + wwdCount acc) ∧
        sim1.available_tables + occCount q =
          sim.available_tables + (occCount evs + occCount acc) ∧
        sim1.config = sim.config ∧ sim1.t_max_time = sim.t_max_time ∧
        sim1.world_time = sim.world_time := by
  intro evs
  induction evs with
  | nil =>
    intro sim acc rng _
    exact ⟨sim, acc, rng, rfl, by simp [wwdCount], by simp [occCount], rfl, rfl, rfl⟩
  | cons e rest ih =>
    intro sim acc rng h
    have hcons := wwdCount_cons e rest
    have hconsT := occCount_cons e rest
    have hok := processEvent_ok time sim e rng (by omega)
    obtain ⟨⟨sim1, push, rng1⟩, heq⟩ := Option.isSome_iff_exists.mp hok
    obtain ⟨hcW, hcT⟩ := processEvent_conserve time sim e rng sim1 push rng1 heq
    obtain ⟨hcfg, hmax, hwt, _⟩ := processEvent_frame time sim e rng sim1 push rng1 heq
    have hpushW := countP_applyPush isWWD push acc
    have hpushT := countP_applyPush occupiesTable push acc
    have hbound : sim1.available_workers +
        (wwdCount rest + wwdCount (applyPush push acc)) ≤ sim1.config.workers := by
      rw [hcfg]
      simp only [wwdCount] at *
      omega
    obtain ⟨sim2, q, rng2, hrun, hW2, hT2, hcfg2, hmax2, hwt2⟩ :=
      ih sim1 (applyPush push acc) rng1 hbound
    refine ⟨sim2, q, rng2, ?_, ?_, ?_, ?_, ?_, ?_⟩
    · simpa [processEvents, heq] using hrun
    · simp only [wwdCount] at *; omega
    · simp only [occCount] at *; omega
    · rw [hcfg2, hcfg]
    · rw [hmax2, hmax]
    · rw [hwt2, hwt]

lemma process_tick_ok (sim : Simulation) (t : Nat) (rng : Rng)
    (hW : WorkerInv sim) (hT : TableInv sim) :
    ∃ sim2 rng2, process_tick sim t rng = some (sim2, rng2) ∧
      WorkerInv sim2 ∧ TableInv sim2 ∧ sim2.config = sim.config ∧
      sim2.t_max_time = sim.t_max_time ∧ sim2.world_time = sim.world_time := by
  unfold WorkerInv at hW
  unfold TableInv at hT
  obtain ⟨sim1, q, rng1, hrun, hWc, hTc, hcfg, hmax, hwt⟩ :=
    processEvents_conserve t sim.events sim [] rng
      (by simp only [wwdCount, List.countP_nil] at hW ⊢; omega)
  refine ⟨{ sim1 with
      average_busy_tables :=
        (sim1.average_busy_tables.1 + ((sim1.config.tables - sim1.available_tables : Nat) : ℚ),
          sim1.average_busy_tables.2 + 1)
      average_free_workers :=
        (sim1.average_free_workers.1 + (sim1.available_workers : ℚ),
          sim1.average_free_workers.2 + 1)
      events := q }, rng1, ?_, ?_, ?_, ?_, ?_, ?_⟩
  · simp [process_tick, hrun]
  · unfold WorkerInv
    simp only [wwdCount, List.countP_nil] at hWc hW ⊢
    rw [hcfg]
    omega
  · unfold TableInv
    simp only [occCount, List.countP_nil] at hTc hT ⊢
    rw [hcfg]
    omega
  · simpa using hcfg
  · simpa using hmax
  · simpa using hwt

lemma generate_frame (sim : Simulation) (t : Nat) (rng : Rng) :
    (generate_new_events sim t rng).1.available_workers = sim.available_workers ∧
    (generate_new_events sim t rng).1.available_tables = sim.available_tables ∧
    wwdCount (generate_new_events sim t rng).1.events = wwdCount sim.events ∧
    occCount (generate_new_events sim t rng).1.events = occCount sim.events ∧
    (generate_new_events sim t rng).1.config = sim.config ∧
    (generate_new_events sim t rng).1.t_max_time = sim.t_max_time ∧
    (generate_new_events sim t rng).1.world_time = sim.world_time := by
  simp only [generate_new_events]
  split_ifs <;>
    simp [wwdCount, occCount, List.countP_append, isWWD, occupiesTable]

lemma generate_inv (sim : Simulation) (t : Nat) (rng : Rng)
    (hW : WorkerInv sim) (hT : TableInv sim) :
    WorkerInv (generate_new_events sim t rng).1 ∧
      TableInv (generate_new_events sim t rng).1 := by
  obtain ⟨h1, h2, h3, h4, h5, _, _⟩ := generate_frame sim t rng
  unfold WorkerInv TableInv at *
  rw [h1, h2, h3, h4, h5]
  exact ⟨hW, hT⟩

lemma reachable_invs (s : Simulation) (h : Reachable s) : WorkerInv s ∧ TableInv s := by
  induction h with
  | init cfg =>
    constructor <;> simp [WorkerInv, TableInv, Simulation.with_config, wwdCount, occCount]
  | tick s t rng s2 rng2 _ hstep ih =>
    obtain ⟨hW1, hT1⟩ := generate_inv s t rng ih.1 ih.2
    obtain ⟨s2x, rng2x, heq, hW2, hT2, _, _, _⟩ :=
      process_tick_ok (generate_new_events s t rng).1 t (generate_new_events s t rng).2 hW1 hT1
    rw [hstep] at heq
    simp only [Option.some.injEq, Prod.mk.injEq] at heq
    obtain ⟨rfl, rfl⟩ := heq
    exact ⟨hW2, hT2⟩
  | reset s _ ih =>
    unfold WorkerInv TableInv Simulation.reset_metrics at *
    simpa using ih
  | clock s t _ ih =>
    unfold WorkerInv TableInv at *
    simpa using ih

lemma runTicks_ok (start_time : Nat) :
    ∀ (n : Nat) (sim : Simulation) (tick : Nat) (log : Log) (rng : Rng),
      WorkerInv sim → TableInv sim →
      ∃ sim1 log1 rng1, runTicks sim start_time tick n log rng = some (sim1, log1, rng1) ∧
        WorkerInv sim1 ∧ TableInv sim1 ∧ sim1.config = sim.config ∧
        sim1.t_max_time = sim.t_max_time ∧ sim1.world_time = sim.world_time := by
  intro n
  induction n with
  | zero => intro sim tick log rng hW hT; exact ⟨sim, log, rng, rfl, hW, hT, rfl, rfl, rfl⟩
  | succ m ih =>
    intro sim tick log rng hW hT
    obtain ⟨hW1, hT1⟩ := generate_inv sim tick rng hW hT
    obtain ⟨hgw, hgt, _, _, hgcfg, hgmax, hgwt⟩ := generate_frame sim tick rng
    obtain ⟨sim2, rng2, heq, hW2, hT2, hcfg2, hmax2, hwt2⟩ :=
      process_tick_ok (generate_new_events sim tick rng).1 tick
        (generate_new_events sim tick rng).2 hW1 hT1
    obtain ⟨sim3, log3, rng3, hrun, hW3, hT3, hcfg3, hmax3, hwt3⟩ :=
      ih sim2 (tick + 1)
        (if sim2.config.use_logs then Log.appendEntry log (tick - start_time) (result_of sim2)
          else log) rng2 hW2 hT2
    refine ⟨sim3, log3, rng3, ?_, hW3, hT3, ?_, ?_, ?_⟩
    · simp only [runTicks, heq]
      exact hrun
    · rw [hcfg3, hcfg2, hgcfg]
    · rw [hmax3, hmax2, hgmax]
    · rw [hwt3, hwt2, hgwt]

/-- C1: for every reachable simulation state, available_workers is at most
the configured worker count, and from any reachable state a whole run
completes without the assert of simulation.rs line 164 firing (no aborted
run). -/
theorem claim_C1 (s : Simulation) (h : Reachable s) :
    s.available_workers ≤ s.config.workers ∧
      ∀ rng : Rng, (Simulation.run s rng).isSome = true := by
  obtain ⟨hW, hT⟩ := reachable_invs s h
  constructor
  · unfold WorkerInv at hW
    omega
  · intro rng
    have hW0 : WorkerInv { s with world_time := some (s.world_time.getD 0 + s.t_max_time) } := by
      unfold WorkerInv at *
      simpa using hW
    have hT0 : TableInv { s with world_time := some (s.world_time.getD 0 + s.t_max_time) } := by
      unfold TableInv at *
      simpa using hT
    obtain ⟨sim1, log1, rng1, hrun, _, _, _, _, _⟩ :=
      runTicks_ok (s.world_time.getD 0) s.t_max_time
        { s with world_time := some (s.world_time.getD 0 + s.t_max_time) }
        (s.world_time.getD 0) Log.empty rng hW0 hT0
    simp only [Simulation.run]
    rw [hrun]
    rfl

/-- Witness for C1 at a freshly constructed simulation and a concrete oracle. -/
theorem claim_C1_witness :
    (Simulation.with_config cfg0).available_workers ≤ cfg0.workers ∧
      (Simulation.run (Simulation.with_config cfg0) rng0).isSome = true := by
  have h := claim_C1 (Simulation.with_config cfg0) (Reachable.init cfg0)
  exact ⟨h.1, h.2 rng0⟩

/-- C2: for every reachable simulation state, available_tables plus the
number of tables held by in-flight clients (one per live WaitingForWorker,
WorkerWalkingDance, WaitingForFood or ConsumeFood event) equals the
configured table count; hence available_tables never exceeds config.tables
and the occupancy subtraction config.tables - available_tables is exact
(no underflow). -/
theorem claim_C2 (s : Simulation) (h : Reachable s) :
    s.available_tables + occCount s.events = s.config.tables ∧
      s.available_tables ≤ s.config.tables ∧
      s.config.tables - s.available_tables + s.available_tables = s.config.tables := by
  obtain ⟨_, hT⟩ := reachable_invs s h
  unfold TableInv at hT
  exact ⟨hT, by omega, by omega⟩

/-- Witness for C2 at a freshly constructed simulation. -/
theorem claim_C2_witness :
    (Simulation.with_config cfg0).available_tables +
        occCount (Simulation.with_config cfg0).events = cfg0.tables ∧
      (Simulation.with_config cfg0).available_tables ≤ cfg0.tables ∧
      cfg0.tables - (Simulation.with_config cfg0).available_tables +
        (Simulation.with_config cfg0).available_tables = cfg0.tables :=
  claim_C2 (Simulation.with_config cfg0) (Reachable.init cfg0)

/-- C7 counterexample: with std_dev 1, t critical value 3 and a window of 4
observations (so sqrt of the length is 2), the value plotted by task_3_3 is
3, not the 2 * std_dev / sqrt n = 1 the claim predicts: the code multiplies
the fixed 2 by the t value instead of replacing the t value with 2. -/
theorem claim_C7_counterexample :
    task33_band 1 3 2 = 3 ∧ task33_band 1 3 2 ≠ 2 * 1 / 2 := by
  constructor <;> norm_num [task33_band]

/-- C7 amended: the per-window band value equals the Student t critical
value times the 2-based half-width 2 * std_dev / sqrt n, i.e. the fixed
multiplier 2 multiplies the t value rather than standing in its place. -/
theorem claim_C7_amended (std_dev t_stat sqrt_len : ℚ) :
    task33_band std_dev t_stat sqrt_len = t_stat * (2 * std_dev / sqrt_len) := by
  unfold task33_band
  ring

/-- C8: any metric accumulator whose observation count (and hence, in every
state the program produces, its sum) is zero yields the IEEE NaN of the
unguarded 0.0 / 0.0 division as the corresponding averaged field of
result_of; no substitute value is supplied. -/
theorem claim_C8 (s : Simulation) :
    (s.average_consumption_time = (0, 0) →
      (result_of s).average_consumption_time = F32.nan) ∧
    (s.average_worker_waiting_time = (0, 0) →
      (result_of s).average_worker_waiting_time = F32.nan) ∧
    (s.average_order_time = (0, 0) → (result_of s).average_order_time = F32.nan) ∧
    (s.average_busy_tables = (0, 0) → (result_of s).average_busy_tables = F32.nan) ∧
    (s.average_free_workers = (0, 0) → (result_of s).average_free_workers = F32.nan) := by
  refine ⟨?_, ?_, ?_, ?_, ?_⟩ <;> intro h <;> simp [result_of, f32div, h]

/-- Witness for C8 at a freshly constructed simulation, where every
accumulator is (0, 0). -/
theorem claim_C8_witness :
    (result_of (Simulation.with_config cfg0)).average_consumption_time = F32.nan ∧
      (result_of (Simulation.with_config cfg0)).average_worker_waiting_time = F32.nan ∧
      (result_of (Simulation.with_config cfg0)).average_order_time = F32.nan ∧
      (result_of (Simulation.with_config cfg0)).average_busy_tables = F32.nan ∧
      (result_of (Simulation.with_config cfg0)).average_free_workers = F32.nan := by
  have h := claim_C8 (Simulation.with_config cfg0)
  exact ⟨h.1 rfl, h.2.1 rfl, h.2.2.1 rfl, h.2.2.2.1 rfl, h.2.2.2.2 rfl⟩

/-- C9: reset_metrics zeroes every accumulator (and the _pre mirrors) and
every client counter, and leaves available_tables, available_workers, the
event queue, world_time, the configuration and the horizon untouched. -/
theorem claim_C9 (s : Simulation) :
    (Simulation.reset_metrics s).average_worker_waiting_time = (0, 0) ∧
    (Simulation.reset_metrics s).average_order_time = (0, 0) ∧
    (Simulation.reset_metrics s).average_consumption_time = (0, 0) ∧
    (Simulation.reset_metrics s).average_busy_tables = (0, 0) ∧
    (Simulation.reset_metrics s).average_free_workers = (0, 0) ∧
    (Simulation.reset_metrics s).average_worker_waiting_time_pre = 0 ∧
    (Simulation.reset_metrics s).average_order_time_pre = 0 ∧
    (Simulation.reset_metrics s).average_consumption_time_pre = 0 ∧
    (Simulation.reset_metrics s).average_busy_tables_pre = 0 ∧
    (Simulation.reset_metrics s).average_free_workers_pre = 0 ∧
    (Simulation.reset_metrics s).not_dispatched_clients = 0 ∧
    (Simulation.reset_metrics s).dispatched_clients_count = 0 ∧
    (Simulation.reset_metrics s).immediately_left_clients_count = 0 ∧
    (Simulation.reset_metrics s).available_tables = s.available_tables ∧
    (Simulation.reset_metrics s).available_workers = s.available_workers ∧
    (Simulation.reset_metrics s).events = s.events ∧
    (Simulation.reset_metrics s).world_time = s.world_time ∧
    (Simulation.reset_metrics s).config = s.config ∧
    (Simulation.reset_metrics s).t_max_time = s.t_max_time := by
  refine ⟨rfl, rfl, rfl, rfl, rfl, rfl, rfl, rfl, rfl, rfl, rfl, rfl, rfl, rfl, rfl,
    rfl, rfl, rfl, rfl⟩

/-- C4: a WaitingForWorker(start, deadline, first) event processed at tick t
with deadline at or before t re-seats the table, adds deadline - start to
the waiting-time accumulator and bumps its count, increments the
not-dispatched counter exactly when first holds, and drops the event (push
none); the equation holds for every state, in particular when a worker is
free at the same tick, so this branch takes priority. -/
theorem claim_C4 (t : Nat) (sim : Simulation) (rng : Rng) (start deadline : Nat)
    (first : Bool) (h1 : deadline ≤ t) (h2 : start ≤ deadline) :
    processEvent t sim (Event.WaitingForWorker start deadline first) rng =
      some ({ sim with
        available_tables := sim.available_tables + 1
        average_worker_waiting_time :=
          (sim.average_worker_waiting_time.1 + ((deadline : ℚ) - (start : ℚ)),
            sim.average_worker_waiting_time.2 + 1)
        not_dispatched_clients :=
          sim.not_dispatched_clients + (if first then 1 else 0) }, none, rng) := by
  have hcast : ((deadline - start : Nat) : ℚ) = (deadline : ℚ) - (start : ℚ) := by
    push_cast [h2]
    ring
  simp only [processEvent, if_pos h1]
  cases first <;> simp [hcast]

/-- Witness for C4 at tick 5 on a fresh simulation whose single worker is
free, with start 2, deadline 4, first true. -/
theorem claim_C4_witness :
    processEvent 5 (Simulation.with_config cfg0) (Event.WaitingForWorker 2 4 true) rng0 =
      some ({ Simulation.with_config cfg0 with
        available_tables := (Simulation.with_config cfg0).available_tables + 1
        average_worker_waiting_time :=
          ((Simulation.with_config cfg0).average_worker_waiting_time.1 +
              (((4 : Nat) : ℚ) - ((2 : Nat) : ℚ)),
            (Simulation.with_config cfg0).average_worker_waiting_time.2 + 1)
        not_dispatched_clients :=
          (Simulation.with_config cfg0).not_dispatched_clients +
            (if true then 1 else 0) }, none, rng0) :=
  claim_C4 5 (Simulation.with_config cfg0) rng0 2 4 true (by decide) (by decide)

/-- C5: during tick processing, a not-yet-ready WorkerWalkingDance or
WaitingForFood event is re-enqueued at the front of the fresh queue, while
a not-yet-finished ConsumeFood event and a still-waiting (deadline in the
future, no worker free) WaitingForWorker event are re-enqueued at the back,
whatever the rest of the queue and the fresh queue contain. -/
theorem claim_C5 :
    (∀ (t : Nat) (sim : Simulation) (rng : Rng) (f : Nat) (rest acc : List Event),
      t < f →
      processEvents t sim (Event.WorkerWalkingDance f :: rest) acc rng =
        processEvents t sim rest (Event.WorkerWalkingDance f :: acc) rng) ∧
    (∀ (t : Nat) (sim : Simulation) (rng : Rng) (f : Nat) (rest acc : List Event),
      t < f →
      processEvents t sim (Event.WaitingForFood f :: rest) acc rng =
        processEvents t sim rest (Event.WaitingForFood f :: acc) rng) ∧
    (∀ (t : Nat) (sim : Simulation) (rng : Rng) (f : Nat) (rest acc : List Event),
      t < f →
      processEvents t sim (Event.ConsumeFood f :: rest) acc rng =
        processEvents t sim rest (acc ++ [Event.ConsumeFood f]) rng) ∧
    (∀ (t : Nat) (sim : Simulation) (rng : Rng) (start deadline : Nat) (first : Bool)
      (rest acc : List Event),
      t < deadline → sim.available_workers = 0 →
      processEvents t sim (Event.WaitingForWorker start deadline first :: rest) acc rng =
        processEvents t sim rest (acc ++ [Event.WaitingForWorker start deadline first]) rng) := by
  refine ⟨?_, ?_, ?_, ?_⟩
  · intro t sim rng f rest acc h
    have hcond : ¬ f ≤ t := by omega
    simp [processEvents, processEvent, hcond, applyPush]
  · intro t sim rng f rest acc h
    have hcond : ¬ f ≤ t := by omega
    simp [processEvents, processEvent, hcond, applyPush]
  · intro t sim rng f rest acc h
    have hcond : ¬ f ≤ t := by omega
    simp [processEvents, processEvent, hcond, applyPush]
  · intro t sim rng start deadline first rest acc h hw
    have hcond : ¬ deadline ≤ t := by omega
    have hw2 : ¬ 0 < sim.available_workers := by omega
    simp [processEvents, processEvent, hcond, hw2, applyPush]

/-- Witness for C5: each of the four re-enqueue rules instantiated at tick 3
on a fresh no-worker simulation. -/
theorem claim_C5_witness :
    processEvents 3 (Simulation.with_config c5cfg) [Event.WorkerWalkingDance 5] [] rng0 =
        processEvents 3 (Simulation.with_config c5cfg) [] [Event.WorkerWalkingDance 5] rng0 ∧
      processEvents 3 (Simulation.with_config c5cfg) [Event.WaitingForFood 5] [] rng0 =
        processEvents 3 (Simulation.with_config c5cfg) [] [Event.WaitingForFood 5] rng0 ∧
      processEvents 3 (Simulation.with_config c5cfg) [Event.ConsumeFood 5] [] rng0 =
        processEvents 3 (Simulation.with_config c5cfg) [] ([] ++ [Event.ConsumeFood 5]) rng0 ∧
      processEvents 3 (Simulation.with_config c5cfg) [Event.WaitingForWorker 1 5 true] [] rng0 =
        processEvents 3 (Simulation.with_config c5cfg) []
          ([] ++ [Event.WaitingForWorker 1 5 true]) rng0 :=
  ⟨claim_C5.1 3 (Simulation.with_config c5cfg) rng0 5 [] [] (by decide),
    claim_C5.2.1 3 (Simulation.with_config c5cfg) rng0 5 [] [] (by decide),
    claim_C5.2.2.1 3 (Simulation.with_config c5cfg) rng0 5 [] [] (by decide),
    claim_C5.2.2.2 3 (Simulation.with_config c5cfg) rng0 1 5 true [] [] (by decide) (by decide)⟩

lemma processEvent_blocked (t : Nat) (sim : Simulation) (e : Event) (rng : Rng)
    (h : blockedInProgress t e = true) :
    processEvent t sim e rng = some (sim, some (Push.pushFront e), rng) := by
  cases e with
  | WorkerWalkingDance f =>
    simp only [blockedInProgress, decide_eq_true_eq] at h
    have hcond : ¬ f ≤ t := by omega
    simp [processEvent, hcond]
  | WaitingForFood f =>
    simp only [blockedInProgress, decide_eq_true_eq] at h
    have hcond : ¬ f ≤ t := by omega
    simp [processEvent, hcond]
  | Enter a => simp [blockedInProgress] at h
  | WaitingForWorker a b c => simp [blockedInProgress] at h
  | ConsumeFood a => simp [blockedInProgress] at h

lemma processEvents_append (time : Nat) :
    ∀ (xs ys : List Event) (sim : Simulation) (acc : List Event) (rng : Rng),
      processEvents time sim (xs ++ ys) acc rng =
        (processEvents time sim xs acc rng).bind
          (fun p => processEvents time p.1 ys p.2.1 p.2.2) := by
  intro xs
  induction xs with
  | nil => intro ys sim acc rng; simp [processEvents]
  | cons e rest ih =>
    intro ys sim acc rng
    simp only [List.cons_append, processEvents]
    rcases processEvent time sim e rng with _ | ⟨sim2, push, rng2⟩
    · rfl
    · exact ih ys sim2 (applyPush push acc) rng2

lemma processEvents_split (time : Nat) :
    ∀ (evs : List Event) (sim : Simulation) (acc : List Event) (rng : Rng)
      (sim1 : Simulation) (q : List Event) (rng1 : Rng),
      processEvents time sim evs acc rng = some (sim1, q, rng1) →
      ∃ F B, q = F ++ acc ++ B ∧
        ∀ acc2 : List Event,
          processEvents time sim evs acc2 rng = some (sim1, F ++ acc2 ++ B, rng1) := by
  intro evs
  induction evs with
  | nil =>
    intro sim acc rng sim1 q rng1 h
    simp only [processEvents, Option.some.injEq, Prod.mk.injEq] at h
    obtain ⟨rfl, rfl, rfl⟩ := h
    exact ⟨[], [], by simp, fun acc2 => by simp [processEvents]⟩
  | cons e rest ih =>
    intro sim acc rng sim1 q rng1 h
    simp only [processEvents] at h
    rcases heq : processEvent time sim e rng with _ | ⟨sim2, push, rng2⟩
    · rw [heq] at h
      simp at h
    · rw [heq] at h
      obtain ⟨F, B, hq, hall⟩ := ih sim2 (applyPush push acc) rng2 sim1 q rng1 h
      cases push with
      | none =>
        refine ⟨F, B, by simpa [applyPush] using hq, ?_⟩
        intro acc2
        simp only [processEvents, heq]
        simpa [applyPush] using hall acc2
      | some p =>
        cases p with
        | pushFront e2 =>
          refine ⟨F ++ [e2], B, ?_, ?_⟩
          · rw [hq]
            simp [applyPush]
          · intro acc2
            simp only [processEvents, heq]
            have hx := hall (e2 :: acc2)
            simp only [applyPush] at hx ⊢
            rw [hx]
            simp
        | pushBack e2 =>
          refine ⟨F, e2 :: B, ?_, ?_⟩
          · rw [hq]
            simp [applyPush]
          · intro acc2
            simp only [processEvents, heq]
            have hx := hall (acc2 ++ [e2])
            simp only [applyPush] at hx ⊢
            rw [hx]
            simp

/-- C10: if two resource-in-progress events e1 and e2, both still blocked at
tick t, stand in that order in the drained queue, then in the queue produced
by the drain loop e2 stands ahead of e1: each blocked in-progress event is
pushed to the front of the fresh queue as it is met, so their relative order
is reversed. -/
theorem claim_C10 (t : Nat) (sim : Simulation) (rng : Rng) (l1 l2 l3 : List Event)
    (e1 e2 : Event) (out : Simulation × List Event × Rng)
    (h1 : blockedInProgress t e1 = true) (h2 : blockedInProgress t e2 = true)
    (hrun : processEvents t sim (l1 ++ e1 :: (l2 ++ e2 :: l3)) [] rng = some out) :
    ∃ A B C, out.2.1 = A ++ e2 :: (B ++ e1 :: C) := by
  obtain ⟨simO, qO, rngO⟩ := out
  rw [processEvents_append t l1 (e1 :: (l2 ++ e2 :: l3)) sim [] rng] at hrun
  rcases hA : processEvents t sim l1 [] rng with _ | ⟨simA, qA, rngA⟩
  · rw [hA] at hrun
    simp at hrun
  · rw [hA] at hrun
    simp only [Option.some_bind] at hrun
    simp only [processEvents, processEvent_blocked t simA e1 rngA h1, applyPush] at hrun
    rw [processEvents_append t l2 (e2 :: l3) simA (e1 :: qA) rngA] at hrun
    rcases hB : processEvents t simA l2 (e1 :: qA) rngA with _ | ⟨simB, qB, rngB⟩
    · rw [hB] at hrun
      simp at hrun
    · rw [hB] at hrun
      simp only [Option.some_bind] at hrun
      simp only [processEvents, processEvent_blocked t simB e2 rngB h2, applyPush] at hrun
      obtain ⟨F2, B2, hq2, _⟩ :=
        processEvents_split t l2 simA (e1 :: qA) rngA simB qB rngB hB
      obtain ⟨F3, B3, hq3, _⟩ :=
        processEvents_split t l3 simB (e2 :: qB) rngB simO qO rngO hrun
      refine ⟨F3, F2, qA ++ B2 ++ B3, ?_⟩
      rw [hq3, hq2]
      simp [List.append_assoc]

/-- Witness for C10: two blocked in-progress events at tick 3, drained in
the order WorkerWalkingDance 5 then WaitingForFood 6, end up in reversed
order in the fresh queue. -/
theorem claim_C10_witness :
    ∃ A B C, ((Simulation.with_config c5cfg, [Event.WaitingForFood 6,
        Event.WorkerWalkingDance 5], rng0) : Simulation × List Event × Rng).2.1 =
      A ++ Event.WaitingForFood 6 :: (B ++ Event.WorkerWalkingDance 5 :: C) :=
  claim_C10 3 (Simulation.with_config c5cfg) rng0 [] [] []
    (Event.WorkerWalkingDance 5) (Event.WaitingForFood 6)
    (Simulation.with_config c5cfg, [Event.WaitingForFood 6, Event.WorkerWalkingDance 5], rng0)
    (by decide) (by decide) (by rfl)

lemma tick_tables_zero (sim : Simulation) (t : Nat) (rng : Rng)
    (h1 : sim.config.tables = 0) (h2 : sim.config.client_ratio = 1)
    (h3 : sim.available_tables = 0) (h4 : sim.events = []) :
    ∃ sim2 rng2,
      process_tick (generate_new_events sim t rng).1 t (generate_new_events sim t rng).2 =
        some (sim2, rng2) ∧
      sim2.config = sim.config ∧ sim2.available_tables = 0 ∧ sim2.events = [] ∧
      sim2.immediately_left_clients_count = sim.immediately_left_clients_count + 1 ∧
      sim2.t_max_time = sim.t_max_time ∧ sim2.world_time = sim.world_time := by
  have hgen : generate_new_events sim t rng =
      ({ sim with events := [Event.Enter t] }, rng.next.2) := by
    simp [generate_new_events, gen_bool, h2, h4]
  have hproc : process_tick { sim with events := [Event.Enter t] } t rng.next.2 =
      some ({ sim with
        events := []
        immediately_left_clients_count := sim.immediately_left_clients_count + 1
        average_busy_tables :=
          (sim.average_busy_tables.1 + ((sim.config.tables - sim.available_tables : Nat) : ℚ),
            sim.average_busy_tables.2 + 1)
        average_free_workers :=
          (sim.average_free_workers.1 + (sim.available_workers : ℚ),
            sim.average_free_workers.2 + 1) }, rng.next.2) := by
    simp [process_tick, processEvents, processEvent, applyPush, h3]
  refine ⟨{ sim with
      events := []
      immediately_left_clients_count := sim.immediately_left_clients_count + 1
      average_busy_tables :=
        (sim.average_busy_tables.1 + ((sim.config.tables - sim.available_tables : Nat) : ℚ),
          sim.average_busy_tables.2 + 1)
      average_free_workers :=
        (sim.average_free_workers.1 + (sim.available_workers : ℚ),
          sim.average_free_workers.2 + 1) }, rng.next.2, ?_, rfl, h3, rfl, rfl, rfl, rfl⟩
  rw [hgen]
  exact hproc

lemma runTicks_tables_zero (start_time : Nat) :
    ∀ (n : Nat) (sim : Simulation) (tick : Nat) (log : Log) (rng : Rng),
      sim.config.tables = 0 → sim.config.client_ratio = 1 →
      sim.available_tables = 0 → sim.events = [] →
      ∃ sim1 log1 rng1, runTicks sim start_time tick n log rng = some (sim1, log1, rng1) ∧
        sim1.immediately_left_clients_count = sim.immediately_left_clients_count + n ∧
        sim1.events = [] ∧ sim1.config = sim.config ∧
        sim1.t_max_time = sim.t_max_time := by
  intro n
  induction n with
  | zero =>
    intro sim tick log rng h1 h2 h3 h4
    exact ⟨sim, log, rng, rfl, by omega, h4, rfl, rfl⟩
  | succ m ih =>
    intro sim tick log rng h1 h2 h3 h4
    obtain ⟨sim2, rng2, heq, hc, ha, he, him, hm, _⟩ := tick_tables_zero sim tick rng h1 h2 h3 h4
    obtain ⟨sim3, log3, rng3, hrun, him3, he3, hc3, hm3⟩ :=
      ih sim2 (tick + 1)
        (if sim2.config.use_logs then Log.appendEntry log (tick - start_time) (result_of sim2)
          else log) rng2 (by rw [hc]; exact h1) (by rw [hc]; exact h2) ha he
    refine ⟨sim3, log3, rng3, ?_, ?_, he3, ?_, ?_⟩
    · simp only [runTicks, heq]
      exact hrun
    · omega
    · rw [hc3, hc]
    · rw [hm3, hm]

lemma run_tables_zero (sim : Simulation) (rng : Rng)
    (h1 : sim.config.tables = 0) (h2 : sim.config.client_ratio = 1)
    (h3 : sim.available_tables = 0) (h4 : sim.events = []) :
    ∃ r log sim1 rng1, Simulation.run sim rng = some (r, log, sim1, rng1) ∧
      r = result_of sim1 ∧
      sim1.immediately_left_clients_count =
        sim.immediately_left_clients_count + sim.t_max_time ∧
      sim1.events = [] := by
  obtain ⟨sim1, log1, rng1, hrun, him, he, _, _⟩ :=
    runTicks_tables_zero (sim.world_time.getD 0) sim.t_max_time
      { sim with world_time := some (sim.world_time.getD 0 + sim.t_max_time) }
      (sim.world_time.getD 0) Log.empty rng h1 h2 h3 h4
  refine ⟨result_of sim1, log1, sim1, rng1, ?_, rfl, ?_, he⟩
  · simp only [Simulation.run]
    rw [hrun]
  · simpa using him

/-- C6: with tables = 0 and client_ratio = 1, one arrival is generated every
tick and every arrival takes the no-table branch, so after the run of
max_time ticks the immediately-left counter of the final state and of the
returned Results equals max_time, and the queue is empty: no client ever
obtained a table or re-entered the system. -/
theorem claim_C6 (cfg : SimulationConfig) (rng : Rng)
    (h1 : cfg.tables = 0) (h2 : cfg.client_ratio = 1) :
    ∃ r log sim1 rng1,
      Simulation.run (Simulation.with_config cfg) rng = some (r, log, sim1, rng1) ∧
      sim1.immediately_left_clients_count = cfg.max_time ∧
      r.immediately_left_clients_count = (cfg.max_time : ℚ) ∧
      sim1.events = [] := by
  obtain ⟨r, log, sim1, rng1, hrun, hr, him, he⟩ :=
    run_tables_zero (Simulation.with_config cfg) rng h1 h2 h1 rfl
  have him2 : sim1.immediately_left_clients_count = cfg.max_time := by
    simpa [Simulation.with_config] using him
  refine ⟨r, log, sim1, rng1, hrun, him2, ?_, he⟩
  rw [hr]
  simp [result_of, him2]

/-- Witness for C6: with tables = 0, client_ratio = 1 and horizon 2, the
final state of a concrete run counts exactly 2 immediately-left clients. -/
theorem claim_C6_witness :
    (Simulation.run (Simulation.with_config c6cfg) rng0).map
        (fun out => out.2.2.1.immediately_left_clients_count) = some 2 := by
  obtain ⟨r, log, sim1, rng1, hrun, him, _, _⟩ := claim_C6 c6cfg rng0 rfl rfl
  rw [hrun]
  simpa using him

lemma processEvents_frame (time : Nat) :
    ∀ (evs : List Event) (sim : Simulation) (acc : List Event) (rng : Rng)
      (sim1 : Simulation) (q : List Event) (rng1 : Rng),
      processEvents time sim evs acc rng = some (sim1, q, rng1) →
      sim1.config = sim.config ∧ sim1.t_max_time = sim.t_max_time ∧
        sim1.world_time = sim.world_time := by
  intro evs
  induction evs with
  | nil =>
    intro sim acc rng sim1 q rng1 h
    simp only [processEvents, Option.some.injEq, Prod.mk.injEq] at h
    obtain ⟨rfl, rfl, rfl⟩ := h
    exact ⟨rfl, rfl, rfl⟩
  | cons e rest ih =>
    intro sim acc rng sim1 q rng1 h
    simp only [processEvents] at h
    rcases heq : processEvent time sim e rng with _ | ⟨sim2, push, rng2⟩
    · rw [heq] at h
      simp at h
    · rw [heq] at h
      obtain ⟨hc, hm, hw, _⟩ := processEvent_frame time sim e rng sim2 push rng2 heq
      obtain ⟨hc2, hm2, hw2⟩ := ih sim2 (applyPush push acc) rng2 sim1 q rng1 h
      exact ⟨hc2.trans hc, hm2.trans hm, hw2.trans hw⟩

lemma process_tick_frame (sim : Simulation) (t : Nat) (rng : Rng)
    (sim2 : Simulation) (rng2 : Rng)
    (h : process_tick sim t rng = some (sim2, rng2)) :
    sim2.config = sim.config ∧ sim2.t_max_time = sim.t_max_time ∧
      sim2.world_time = sim.world_time := by
  simp only [process_tick] at h
  rcases heq : processEvents t sim sim.events [] rng with _ | ⟨sim1, q, rng1⟩
  · rw [heq] at h
    simp at h
  · rw [heq] at h
    obtain ⟨hc, hm, hw⟩ := processEvents_frame t sim.events sim [] rng sim1 q rng1 heq
    simp only [Option.some.injEq, Prod.mk.injEq] at h
    obtain ⟨rfl, rfl⟩ := h
    exact ⟨hc, hm, hw⟩

lemma runTicks_frame (start_time : Nat) :
    ∀ (n : Nat) (sim : Simulation) (tick : Nat) (log : Log) (rng : Rng)
      (sim1 : Simulation) (log1 : Log) (rng1 : Rng),
      runTicks sim start_time tick n log rng = some (sim1, log1, rng1) →
      sim1.config = sim.config ∧ sim1.t_max_time = sim.t_max_time ∧
        sim1.world_time = sim.world_time ∧
        log1.length = log.length + (if sim.config.use_logs then n else 0) := by
  intro n
  induction n with
  | zero =>
    intro sim tick log rng sim1 log1 rng1 h
    simp only [runTicks, Option.some.injEq, Prod.mk.injEq] at h
    obtain ⟨rfl, rfl, rfl⟩ := h
    simp
  | succ m ih =>
    intro sim tick log rng sim1 log1 rng1 h
    simp only [runTicks] at h
    rcases heq : process_tick (generate_new_events sim tick rng).1 tick
        (generate_new_events sim tick rng).2 with _ | ⟨sim2, rng2⟩
    · rw [heq] at h
      simp at h
    · rw [heq] at h
      obtain ⟨_, _, _, _, hgc, hgm, hgw⟩ := generate_frame sim tick rng
      obtain ⟨hc2, hm2, hw2⟩ :=
        process_tick_frame (generate_new_events sim tick rng).1 tick
          (generate_new_events sim tick rng).2 sim2 rng2 heq
      obtain ⟨hc3, hm3, hw3, hl3⟩ := ih sim2 (tick + 1) _ rng2 sim1 log1 rng1 h
      have hcc : sim2.config = sim.config := hc2.trans hgc
      refine ⟨hc3.trans hcc, hm3.trans (hm2.trans hgm), hw3.trans (hw2.trans hgw), ?_⟩
      rw [hl3, hcc]
      by_cases hu : sim.config.use_logs
      · simp only [hu, if_true, Log.appendEntry, List.length_append, List.length_cons,
          List.length_nil]
        omega
      · simp [hu]

/-- C3 amended: run advances the world clock by exactly t_max_time ticks
from the current world_time (0 on a first call, the prior end time after
that), returns the Results derived from the metric accumulators as they
stand at the end of the call — these cover every tick since construction or
the last reset_metrics, which is exactly this call's ticks only for a first
call or one preceded by a reset — and, when logging is enabled, a Log with
one snapshot per tick of this call. -/
theorem claim_C3_amended (s : Simulation) (rng : Rng) (r : Results) (log : Log)
    (s1 : Simulation) (rng1 : Rng)
    (h : Simulation.run s rng = some (r, log, s1, rng1)) :
    s1.world_time = some (s.world_time.getD 0 + s.t_max_time) ∧
      r = result_of s1 ∧
      (s.config.use_logs = true → log.length = s.t_max_time) := by
  simp only [Simulation.run] at h
  rcases heq : runTicks { s with world_time := some (s.world_time.getD 0 + s.t_max_time) }
      (s.world_time.getD 0) (s.world_time.getD 0) s.t_max_time Log.empty rng
    with _ | ⟨simR, logR, rngR⟩
  · rw [heq] at h
    simp at h
  · rw [heq] at h
    simp only [Option.some.injEq, Prod.mk.injEq] at h
    obtain ⟨rfl, rfl, rfl, rfl⟩ := h
    obtain ⟨hc, hm, hw, hlen⟩ :=
      runTicks_frame (s.world_time.getD 0) s.t_max_time
        { s with world_time := some (s.world_time.getD 0 + s.t_max_time) }
        (s.world_time.getD 0) Log.empty rng simR logR rngR heq
    refine ⟨?_, rfl, ?_⟩
    · simpa using hw
    · intro hu
      simpa [Log.empty, hu] using hlen

/-- Witness for the amended C3 at the concrete first run of c3cfg. -/
theorem claim_C3_amended_witness :
    c3out.2.2.1.world_time =
        some ((Simulation.with_config c3cfg).world_time.getD 0 +
          (Simulation.with_config c3cfg).t_max_time) ∧
      c3out.1 = result_of c3out.2.2.1 ∧
      (c3cfg.use_logs = true →
        c3out.2.1.length = (Simulation.with_config c3cfg).t_max_time) :=
  claim_C3_amended (Simulation.with_config c3cfg) rng0 c3out.1 c3out.2.1 c3out.2.2.1
    c3out.2.2.2 rfl

/-- C3 counterexample: with c3cfg (horizon 1, tables 0, client_ratio 1) each
call processes one tick during which exactly one client leaves immediately,
and the first call indeed reports 1; but a second run call on the returned
state reports 2 immediately-left clients, the total since construction, not
the 1 produced by the ticks of that call alone — so run does not return the
Results of exactly the ticks processed during the call. -/
theorem claim_C3_counterexample :
    (Simulation.run (Simulation.with_config c3cfg) rng0).map
        (fun out => out.1.immediately_left_clients_count) = some 1 ∧
      ((Simulation.run (Simulation.with_config c3cfg) rng0).bind
        (fun out1 => (Simulation.run out1.2.2.1 out1.2.2.2).map
          (fun out2 => out2.1.immediately_left_clients_count))) = some 2 ∧
      (2 : ℚ) ≠ 1 := by
  refine ⟨by decide, by decide, by norm_num⟩
